import Mathlib

/-!
# x11type: sending synthetic key events to an X11 window

A shallow embedding of `x11type.cc`.  The program talks to three things
outside itself: the X server (through Xlib), the C library (`getopt`,
`strtoul`, `read`, `printf`) and the C++ implementation (signedness of plain
`char`, width of `unsigned long`).  Each of them is an explicit parameter:

* `Platform`  what the C/C++ implementation leaves open,
* `Server`    what the X server answers through the display connection,
* `World`     the ordered log of every library call the program has made.

Every function below is a state-passing translation of the source function
of the same name; the log is in chronological order.
-/

namespace X11Type

/-! ## Data model -/

/-- One byte of input text. -/
abbrev Byte := Fin 256

/-- A C string (an element of `argv`, or the text to type). -/
abbrev CStr := List Byte

/-- An X11 window id (`Window`, an `unsigned long`). -/
abbrev Window := Nat

/-- The implementation-defined parts of the C/C++ platform the program is built for. -/
structure Platform where
  /-- whether plain `char` is a signed type (it is on x86 Linux, it is not on ARM Linux) -/
  charSigned : Bool
  /-- width in bits of `unsigned long`, the type behind `KeySym` and `Window` -/
  longBits : Nat
  /-- ISO C gives `unsigned long` at least 32 bits -/
  longBits_ge : 32 ≤ longBits
  /-- whether `getopt` permutes `argv` (GNU, unless POSIXLY_CORRECT) or stops at the
      first non-option argument (POSIX) -/
  getoptPermutes : Bool
  /-- number of `Typer` objects that `std::for_each` leaves to be destroyed (the
      temporary, the by-value parameter, the returned copy; compilers elide some) -/
  typerObjects : Nat

/-- What the X server answers through one display connection. -/
structure Server where
  /-- the answer of `XDefaultRootWindow` -/
  root : Window
  /-- the answer of the `k`-th call (counted from 0) of `XGetInputFocus` in this run: the
      window holding the input focus at that moment.  A focus that moves while the program
      runs is a function that is not constant. -/
  focus : Nat → Window
  /-- the answer of `XKeysymToKeycode` for a key symbol (0 when it has no key) -/
  keycode : Nat → Nat

/-- The two process-wide variables of the source, `argv0` and `verbose`. -/
structure Globals where
  argv0 : CStr
  verbose : Nat
  deriving DecidableEq, Repr

/-- The `XKeyEvent` record, without its `display` pointer (a run has one connection). -/
structure XKeyEvent where
  type : Nat
  window : Window
  root : Window
  subwindow : Window
  time : Nat
  x : Int
  y : Int
  x_root : Int
  y_root : Int
  same_screen : Nat
  keycode : Nat
  state : Nat
  deriving DecidableEq, Repr

/-- The texts the program writes, by the format string that produces them. -/
inductive Msg where
  /-- Format "%s: locating window with focus" -/
  | locatingFocus (argv0 : CStr)
  /-- Format "%s: root=0x%x focus=0x%x" -/
  | rootFocus (argv0 : CStr) (root focus : Window)
  /-- Format "%s: typing char <%c>" -/
  | typingChar (argv0 : CStr) (ch : Int)
  /-- the usage text of `usage` -/
  | usage (argv0 : CStr)
  /-- the banner of `printVersion` -/
  | version
  /-- Format "%s: Can't open display: %s" -/
  | cantOpenDisplay (argv0 : CStr) (name : Option CStr)
  /-- the complaint `getopt` itself prints about option character `optopt` -/
  | getoptError (argv0 : CStr) (optopt : Byte)
  /-- what `perror("read()")` prints -/
  | readFailed
  deriving DecidableEq, Repr

/-- One call the program makes to Xlib or to the C library. -/
inductive Action where
  | XOpenDisplay (name : Option CStr)
  | XDefaultRootWindow
  | XGetInputFocus
  | XKeysymToKeycode (keysym : Nat)
  | XSendEvent (w : Window) (propagate : Nat) (event_mask : Nat) (event : XKeyEvent)
  | XFlush
  | read (fd : Nat) (count : Nat)
  | stdout (m : Msg)
  | stderr (m : Msg)
  deriving DecidableEq, Repr

/-- The state threaded through the program: the calls made so far, oldest first, and the
    number of `XGetInputFocus` calls among them. -/
structure World where
  log : List Action
  focusQueries : Nat
  deriving DecidableEq, Repr

/-- The state at program start. -/
def World.init : World := ⟨[], 0⟩

/-- Append one call to the log. -/
def World.emit (σ : World) (a : Action) : World := { σ with log := σ.log ++ [a] }

/-! ## Constants of the X11 and C headers -/

/-- Modelled from the spec: the header constant `XK_Return` (X11/keysymdef.h), the key
    symbol of the Return key. -/
def XK_Return : Int := 0xff0d

/-- Modelled from the spec: the header constant `KeyPress` (X11/X.h). -/
def KeyPress : Nat := 2

/-- Modelled from the spec: the header constant `KeyRelease` (X11/X.h). -/
def KeyRelease : Nat := 3

/-- Modelled from the spec: the header constant `KeyPressMask` (X11/X.h), `1L<<0`. -/
def KeyPressMask : Nat := 1

/-- Modelled from the spec: the header constant `None` (X11/X.h), no window. -/
def None : Window := 0

/-- Modelled from the spec: the header constant `CurrentTime` (X11/X.h). -/
def CurrentTime : Nat := 0

/-- Modelled from the spec: the header constant `True` (X11/Xlib.h). -/
def True_ : Nat := 1

/-- The value of `EXIT_SUCCESS` (stdlib.h). -/
def EXIT_SUCCESS : Nat := 0

/-- The value of `EXIT_FAILURE` (stdlib.h). -/
def EXIT_FAILURE : Nat := 1

/-- The value of `STDIN_FILENO` (unistd.h). -/
def STDIN_FILENO : Nat := 0

/-! ## Integer conversions -/

/-- Conversion `char -> int`, as in `int ch(ch_in)`: the byte value where plain `char` is
    unsigned, its two's-complement reading where it is signed. -/
def charToInt (P : Platform) (b : Byte) : Int :=
  if P.charSigned = true ∧ 128 ≤ b.val then (b.val : Int) - 256 else (b.val : Int)

/-- Conversion `int -> KeySym` (`unsigned long`) at the call of `XKeysymToKeycode`:
    reduction modulo `2 ^ longBits`. -/
def intToKeySym (P : Platform) (i : Int) : Nat := (i % (2 : Int) ^ P.longBits).toNat

/-! ## class Typer -/

/-- The data members of `Typer` other than the display connection. -/
structure Typer where
  winRoot : Window
  window : Window
  deriving DecidableEq, Repr

/-- The constructor `Typer::Typer(Display*, Window inwin)`. -/
def Typer.ctor (G : Globals) (S : Server) (inwin : Window) (σ : World) : Typer × World :=
  let σ := σ.emit .XDefaultRootWindow
  let winRoot := S.root
  let (window, σ) :=
    if inwin = 0 then
      let σ := if G.verbose > 1 then σ.emit (.stderr (.locatingFocus G.argv0)) else σ
      (S.focus σ.focusQueries,
        { log := σ.log ++ [.XGetInputFocus], focusQueries := σ.focusQueries + 1 })
    else (inwin, σ)
  let σ := if G.verbose ≠ 0 then σ.emit (.stderr (.rootFocus G.argv0 winRoot window)) else σ
  (⟨winRoot, window⟩, σ)

/-- The destructor `Typer::~Typer()`. -/
def Typer.dtor (_t : Typer) (σ : World) : World := σ.emit .XFlush

/-- The member function `Typer::createKeyEvent(bool press, int keycode, int modifiers)`. -/
def Typer.createKeyEvent (P : Platform) (S : Server) (t : Typer)
    (press : Bool) (keycode : Int) (modifiers : Int) (σ : World) : XKeyEvent × World :=
  let keysym := intToKeySym P keycode
  let σ := σ.emit (.XKeysymToKeycode keysym)
  ({ window := t.window
     root := t.winRoot
     subwindow := None
     time := CurrentTime
     x := 1
     y := 1
     x_root := 1
     y_root := 1
     same_screen := True_
     keycode := S.keycode keysym
     state := (modifiers % (2 : Int) ^ 32).toNat
     type := if press then KeyPress else KeyRelease }, σ)

/-- The call operator `Typer::operator()(char ch_in)`. -/
def Typer.call (P : Platform) (G : Globals) (S : Server) (t : Typer) (ch_in : Byte)
    (σ : World) : World :=
  let ch : Int := charToInt P ch_in
  let σ := if G.verbose > 1 then σ.emit (.stderr (.typingChar G.argv0 ch)) else σ
  let ch : Int := if ch = 10 then XK_Return else ch
  let (event, σ) := t.createKeyEvent P S true ch 0 σ
  let σ := σ.emit (.XSendEvent event.window True_ KeyPressMask event)
  let (event, σ) := t.createKeyEvent P S false ch 0 σ
  σ.emit (.XSendEvent event.window True_ KeyPressMask event)

/-! ## typeString and streamFile -/

/-- The function `typeString(display, window, str)`: `for_each` over the bytes with one
    `Typer`, whose copies are destroyed when the call is over. -/
def typeString (P : Platform) (G : Globals) (S : Server) (window : Window) (str : List Byte)
    (σ : World) : World :=
  let (t, σ) := Typer.ctor G S window σ
  let σ := str.foldl (fun σ ch => t.call P G S ch σ) σ
  (List.replicate P.typerObjects ()).foldl (fun σ _ => t.dtor σ) σ

/-- What one call of `read(fd, buf, sizeof(buf))` returns: -1, or the bytes put in `buf`
    (none of them at end of input; at most 1024 of them). -/
inductive ReadResult where
  | error
  | bytes (buf : List Byte)
  deriving DecidableEq, Repr

/-- The function `streamFile(display, window, fd)`, run against the results that the
    successive calls of `read` return.  The exit status is `none` when the list holds no result for a `read`
    the loop makes (that `read` never returns). -/
def streamFile (P : Platform) (G : Globals) (S : Server) (window : Window) (fd : Nat) :
    List ReadResult → World → Option Nat × World
  | [], σ => (none, σ.emit (.read fd 1024))
  | r :: rest, σ =>
    let σ := σ.emit (.read fd 1024)
    match r with
    | .error => (some EXIT_FAILURE, σ.emit (.stderr .readFailed))
    | .bytes buf =>
      if buf.length = 0 then (some EXIT_SUCCESS, σ)
      else streamFile P G S window fd rest (typeString P G S window buf σ)

/-! ## The C library: strtoul and getopt -/

/-- The C function `isspace` in the C locale. -/
def isspace (b : Byte) : Bool := b.val = 32 || (9 ≤ b.val && b.val ≤ 13)

/-- Value of a byte as a digit (`0-9`, `a-z`, `A-Z`), if it is one. -/
def digitVal (b : Byte) : Option Nat :=
  if 48 ≤ b.val ∧ b.val ≤ 57 then some (b.val - 48)
  else if 97 ≤ b.val ∧ b.val ≤ 122 then some (b.val - 97 + 10)
  else if 65 ≤ b.val ∧ b.val ≤ 90 then some (b.val - 65 + 10)
  else none

/-- The digit loop of `strtoul`: the value of the longest prefix of digits below `base`. -/
def strtoulDigits (base : Nat) : List Byte → Nat → Nat
  | [], acc => acc
  | c :: cs, acc =>
    match digitVal c with
    | some d => if d < base then strtoulDigits base cs (acc * base + d) else acc
    | none => acc

/-- Library model of `strtoul(nptr, 0, 0)` (ISO C): white space, an optional sign, base 16
    after `0x`/`0X`, base 8 after `0`, base 10 otherwise; `ULONG_MAX` on overflow; a minus
    sign negates in `unsigned long`; 0 when there is no digit. -/
def strtoul (P : Platform) (nptr : CStr) : Nat :=
  let s := nptr.dropWhile isspace
  let (neg, s) : Bool × CStr :=
    match s with
    | c :: r => if c.val = 45 then (true, r) else if c.val = 43 then (false, r) else (false, s)
    | [] => (false, s)
  let (base, s) : Nat × CStr :=
    match s with
    | z :: x :: r =>
      if z.val = 48 ∧ (x.val = 120 ∨ x.val = 88) then (16, r)
      else if z.val = 48 then (8, s) else (10, s)
    | [z] => if z.val = 48 then (8, s) else (10, s)
    | [] => (10, s)
  let v := strtoulDigits base s 0
  if 2 ^ P.longBits ≤ v then 2 ^ P.longBits - 1
  else if neg then (2 ^ P.longBits - v) % 2 ^ P.longBits else v

/-- What one call of `getopt` reports: an option character of the option string with its
    argument (`optarg`), or `'?'` for the offending character `optopt`. -/
inductive GetoptRet where
  | opt (c : Byte) (optarg : Option CStr)
  | err (optopt : Byte)
  deriving DecidableEq, Repr

/-- The `int` that `getopt` returns. -/
def GetoptRet.code : GetoptRet → Nat
  | .opt c _ => c.val
  | .err _ => 63

/-- How an option string classifies a character. -/
inductive OptKind where
  | invalid
  | flag
  | withArg
  deriving DecidableEq, Repr

/-- Look a character up in an option string (`"hd:vVw:"` style). -/
def optKind : List Byte → Byte → OptKind
  | [], _ => .invalid
  | o :: rest, c =>
    if o = c ∧ c.val ≠ 58 then
      (match rest with
       | n :: _ => if n.val = 58 then .withArg else .flag
       | [] => .flag)
    else optKind rest c

/-- Library model of `getopt` on one `argv` element that starts with `-`: the reports for
    the characters after the dash, and whether the next `argv` element was taken as the
    argument of the last one. -/
def getoptCluster (optstring : List Byte) : List Byte → Option CStr → List GetoptRet × Bool
  | [], _ => ([], false)
  | c :: cs, next =>
    match optKind optstring c with
    | .flag =>
      let (rs, used) := getoptCluster optstring cs next
      (.opt c none :: rs, used)
    | .invalid =>
      let (rs, used) := getoptCluster optstring cs next
      (.err c :: rs, used)
    | .withArg =>
      match cs, next with
      | _ :: _, _ => ([.opt c (some cs)], false)
      | [], some a => ([.opt c (some a)], true)
      | [], none => ([.err c], false)

/-- Library model of `getopt(argc, argv, optstring)` called until it returns -1 (POSIX, and
    GNU permutation when the platform does it): all the reports in order, and the operands,
    that is `argv[optind..]` after the last call.  `skip` says that the element at the head
    was already taken as an option argument. -/
def getoptAll (P : Platform) (optstring : List Byte) :
    List CStr → Bool → List GetoptRet × List CStr
  | [], _ => ([], [])
  | _ :: rest, true => getoptAll P optstring rest false
  | a :: rest, false =>
    match a with
    | d :: c :: cs =>
      if d.val = 45 then
        if c.val = 45 ∧ cs = [] then ([], rest)
        else
          let (rs, used) := getoptCluster optstring (c :: cs) rest.head?
          let (rs', ops) := getoptAll P optstring rest used
          (rs ++ rs', ops)
      else if P.getoptPermutes then
        let (rs, ops) := getoptAll P optstring rest false
        (rs, a :: ops)
      else ([], a :: rest)
    | _ =>
      if P.getoptPermutes then
        let (rs, ops) := getoptAll P optstring rest false
        (rs, a :: ops)
      else ([], a :: rest)

/-! ## main -/

/-- The bytes of `"--"`. -/
def dashdash : CStr := [45, 45]

/-- The bytes of `"--help"`. -/
def dashdashHelp : CStr := [45, 45, 104, 101, 108, 112]

/-- The bytes of `"--version"`. -/
def dashdashVersion : CStr := [45, 45, 118, 101, 114, 115, 105, 111, 110]

/-- The option string of `main`, `"hd:vVw:"`. -/
def optstring : List Byte := [104, 100, 58, 118, 86, 119, 58]

/-- A program run that has ended (`exit` or `return` from `main`) or goes on with a value. -/
abbrev Run (α : Type) := Except (Nat × World) (α × World)

/-- The function `usage(err)`: the usage text on standard output, then `exit(err)`. -/
def usage (G : Globals) (err : Nat) (σ : World) : Nat × World :=
  (err, σ.emit (.stdout (.usage G.argv0)))

/-- The function `printVersion()`: the banner on standard output, then `exit(EXIT_SUCCESS)`. -/
def printVersion (σ : World) : Nat × World :=
  (EXIT_SUCCESS, σ.emit (.stdout .version))

/-- The "handle GNU options" loop of `main`, over `argv[1..]`. -/
def gnuOptions (G : Globals) : List CStr → World → Run Unit
  | [], σ => .ok ((), σ)
  | a :: rest, σ =>
    if a = dashdash then .ok ((), σ)
    else if a = dashdashHelp then .error (usage G EXIT_SUCCESS σ)
    else if a = dashdashVersion then .error (printVersion σ)
    else gnuOptions G rest σ

/-- The local variables of `main` that the option loop sets, with the global `verbose`. -/
structure Options where
  display_str : Option CStr
  window : Window
  verbose : Nat
  deriving DecidableEq, Repr

/-- The `while ((opt = getopt(...)) != -1) switch (opt)` loop of `main`, over the reports of
    `getopt`; a `'?'` report comes with the complaint `getopt` prints on standard error. -/
def optionLoop (P : Platform) (G : Globals) : List GetoptRet → Options → World → Run Options
  | [], o, σ => .ok (o, σ)
  | r :: rest, o, σ =>
    let σ := match r with
      | .err c => σ.emit (.stderr (.getoptError G.argv0 c))
      | .opt _ _ => σ
    if r.code = 100 then
      optionLoop P G rest { o with display_str := match r with | .opt _ a => a | .err _ => none } σ
    else if r.code = 104 then .error (usage G EXIT_SUCCESS σ)
    else if r.code = 118 then optionLoop P G rest { o with verbose := o.verbose + 1 } σ
    else if r.code = 86 then .error (printVersion σ)
    else if r.code = 119 then
      optionLoop P G rest
        { o with window := strtoul P (match r with | .opt _ (some a) => a | _ => []) } σ
    else .error (usage G EXIT_FAILURE σ)

/-- The first half of `main`: the GNU-option loop, the `getopt` loop and the choice of
    `str_arg = argv[optind]`.  It yields the options and `str_arg`, unless the program
    has exited. -/
def parseArgs (P : Platform) (argv0 : CStr) (args : List CStr) (σ : World) :
    Run (Options × Option CStr) :=
  let G0 : Globals := ⟨argv0, 0⟩
  match gnuOptions G0 args σ with
  | .error e => .error e
  | .ok (_, σ) =>
    let (rets, operands) := getoptAll P optstring args false
    match optionLoop P G0 rets ⟨none, 0, 0⟩ σ with
    | .error e => .error e
    | .ok (o, σ) => .ok ((o, operands.head?), σ)

/-- The function `main(argc, argv)` with `argv[0] = argv0` and `argv[1..] = args`.  `xopen` is
    `XOpenDisplay` (`none` for a display that cannot be opened) and `stdin` holds the
    results of the successive reads of standard input.  The exit status is `none` when
    `stdin` holds no result for a `read` that is made. -/
def main (P : Platform) (xopen : Option CStr → Option Server) (argv0 : CStr)
    (args : List CStr) (stdin : List ReadResult) : Option Nat × World :=
  match parseArgs P argv0 args World.init with
  | .error (status, σ) => (some status, σ)
  | .ok ((o, str_arg), σ) =>
    let G : Globals := ⟨argv0, o.verbose⟩
    let σ := σ.emit (.XOpenDisplay o.display_str)
    match xopen o.display_str with
    | none => (some EXIT_FAILURE, σ.emit (.stderr (.cantOpenDisplay argv0 o.display_str)))
    | some S =>
      match str_arg with
      | some s => (some EXIT_SUCCESS, typeString P G S o.window s σ)
      | none => streamFile P G S o.window STDIN_FILENO stdin σ

/-! ## Reading the log -/

/-- One call of `XSendEvent`: its window, propagate and event-mask arguments and the event. -/
structure Submission where
  w : Window
  propagate : Nat
  event_mask : Nat
  event : XKeyEvent
  deriving DecidableEq, Repr

/-- The events submitted to the server, in the order of submission. -/
def submissions : List Action → List Submission
  | [] => []
  | .XSendEvent w p m e :: rest => ⟨w, p, m, e⟩ :: submissions rest
  | _ :: rest => submissions rest

/-- The key symbols handed to `XKeysymToKeycode`, in the order of the calls. -/
def keysymLookups : List Action → List Nat
  | [] => []
  | .XKeysymToKeycode k :: rest => k :: keysymLookups rest
  | _ :: rest => keysymLookups rest

/-- Number of `XGetInputFocus` calls in a log. -/
def focusQueryCount (log : List Action) : Nat := log.count .XGetInputFocus

/-- Number of `read` calls in a log. -/
def readCount (log : List Action) : Nat :=
  (log.filter (fun a => match a with | .read _ _ => true | _ => false)).length

/-- The key symbol that `operator()` passes on for an input byte: the value of its local
    `ch` after the newline test, converted at the call of `XKeysymToKeycode`. -/
def keysymOf (P : Platform) (b : Byte) : Nat :=
  intToKeySym P (if charToInt P b = 10 then XK_Return else charToInt P b)

/-- The window a `Typer` built from `inwin` types into when `k` focus queries came before. -/
def targetOf (S : Server) (inwin : Window) (k : Nat) : Window :=
  if inwin = 0 then S.focus k else inwin

/-- The calls made by one `operator()` invocation. -/
def callActs (P : Platform) (G : Globals) (S : Server) (t : Typer) (b : Byte) : List Action :=
  (if G.verbose > 1 then [Action.stderr (.typingChar G.argv0 (charToInt P b))] else []) ++
  [ .XKeysymToKeycode (keysymOf P b),
    .XSendEvent t.window True_ KeyPressMask
      ⟨KeyPress, t.window, t.winRoot, None, CurrentTime, 1, 1, 1, 1, True_,
        S.keycode (keysymOf P b), 0⟩,
    .XKeysymToKeycode (keysymOf P b),
    .XSendEvent t.window True_ KeyPressMask
      ⟨KeyRelease, t.window, t.winRoot, None, CurrentTime, 1, 1, 1, 1, True_,
        S.keycode (keysymOf P b), 0⟩ ]

/-- The calls made by the `Typer` constructor. -/
def ctorActs (G : Globals) (S : Server) (inwin : Window) (k : Nat) : List Action :=
  [Action.XDefaultRootWindow] ++
  (if inwin = 0 then
    (if G.verbose > 1 then [Action.stderr (.locatingFocus G.argv0)] else []) ++
      [Action.XGetInputFocus]
   else []) ++
  (if G.verbose ≠ 0 then [Action.stderr (.rootFocus G.argv0 S.root (targetOf S inwin k))]
   else [])

/-- The calls made by one `typeString` invocation. -/
def typeStringActs (P : Platform) (G : Globals) (S : Server) (inwin : Window) (k : Nat)
    (str : List Byte) : List Action :=
  ctorActs G S inwin k ++ str.flatMap (callActs P G S ⟨S.root, targetOf S inwin k⟩) ++
    List.replicate P.typerObjects Action.XFlush

/-- The press submission `operator()` makes for byte `b`. -/
def pressOf (P : Platform) (S : Server) (t : Typer) (b : Byte) : Submission :=
  ⟨t.window, True_, KeyPressMask,
    ⟨KeyPress, t.window, t.winRoot, None, CurrentTime, 1, 1, 1, 1, True_,
      S.keycode (keysymOf P b), 0⟩⟩

/-- The release submission `operator()` makes for byte `b`. -/
def releaseOf (P : Platform) (S : Server) (t : Typer) (b : Byte) : Submission :=
  ⟨t.window, True_, KeyPressMask,
    ⟨KeyRelease, t.window, t.winRoot, None, CurrentTime, 1, 1, 1, 1, True_,
      S.keycode (keysymOf P b), 0⟩⟩

/-! ## Concrete platforms and a concrete server, for evaluating the program -/

/-- The platform of x86-64 Linux with glibc: signed `char`, 64-bit `unsigned long`,
    permuting `getopt`. -/
def linuxX86_64 : Platform :=
  { charSigned := true, longBits := 64, longBits_ge := by decide,
    getoptPermutes := true, typerObjects := 2 }

/-- The platform of 32-bit ARM Linux: unsigned `char`, 32-bit `unsigned long`. -/
def linuxArm32 : Platform :=
  { charSigned := false, longBits := 32, longBits_ge := by decide,
    getoptPermutes := true, typerObjects := 2 }

/-- A server whose root window is 1, whose focus is on window 100 at the first query and
    on window 101 from the second query on, and whose key code for a key symbol is the
    symbol's low byte. -/
def demoServer : Server := ⟨1, fun k => if k = 0 then 100 else 101, fun s => s % 256⟩

/-- The answer of `XOpenDisplay` in an environment where every display name opens `demoServer`. -/
def demoOpen : Option CStr → Option Server := fun _ => some demoServer

/-- The bytes of `"x11type"`. -/
def progName : CStr := [120, 49, 49, 116, 121, 112, 101]

/-! ## Writing a window id on the command line -/

@[simp]
theorem emit_log (σ : World) (a : Action) : (σ.emit a).log = σ.log ++ [a] := rfl

@[simp]
theorem emit_focusQueries (σ : World) (a : Action) :
    (σ.emit a).focusQueries = σ.focusQueries := rfl

theorem call_eq (P : Platform) (G : Globals) (S : Server) (t : Typer) (b : Byte) (σ : World) :
    t.call P G S b σ = ⟨σ.log ++ callActs P G S t b, σ.focusQueries⟩ := by
  unfold Typer.call Typer.createKeyEvent callActs keysymOf World.emit
  by_cases hv : G.verbose > 1 <;> simp [hv]

theorem foldl_call_eq (P : Platform) (G : Globals) (S : Server) (t : Typer) (str : List Byte) :
    ∀ σ : World, str.foldl (fun σ ch => t.call P G S ch σ) σ
      = ⟨σ.log ++ str.flatMap (callActs P G S t), σ.focusQueries⟩ := by
  induction str with
  | nil => intro σ; simp
  | cons b bs ih =>
    intro σ
    rw [List.foldl_cons, ih, call_eq]
    simp [List.append_assoc]

theorem foldl_dtor_eq (t : Typer) (n : Nat) :
    ∀ σ : World, (List.replicate n ()).foldl (fun σ _ => t.dtor σ) σ
      = ⟨σ.log ++ List.replicate n Action.XFlush, σ.focusQueries⟩ := by
  induction n with
  | zero => intro σ; simp
  | succ n ih =>
    intro σ
    rw [List.replicate_succ, List.foldl_cons, ih]
    simp [List.replicate_succ, Typer.dtor, World.emit, List.append_assoc]

theorem ctor_eq (G : Globals) (S : Server) (inwin : Window) (σ : World) :
    Typer.ctor G S inwin σ =
      (⟨S.root, targetOf S inwin σ.focusQueries⟩,
       ⟨σ.log ++ ctorActs G S inwin σ.focusQueries,
        σ.focusQueries + (if inwin = 0 then 1 else 0)⟩) := by
  unfold Typer.ctor ctorActs targetOf World.emit
  by_cases hw : inwin = 0 <;> by_cases hv : G.verbose > 1 <;>
    by_cases hv0 : G.verbose = 0 <;> simp [hw, hv, hv0]

theorem typeString_eq (P : Platform) (G : Globals) (S : Server) (inwin : Window)
    (str : List Byte) (σ : World) :
    typeString P G S inwin str σ =
      ⟨σ.log ++ typeStringActs P G S inwin σ.focusQueries str,
       σ.focusQueries + (if inwin = 0 then 1 else 0)⟩ := by
  unfold typeString typeStringActs
  simp [ctor_eq, foldl_call_eq, foldl_dtor_eq, List.append_assoc]

theorem submissions_append (l₁ l₂ : List Action) :
    submissions (l₁ ++ l₂) = submissions l₁ ++ submissions l₂ := by
  induction l₁ with
  | nil => rfl
  | cons a l ih => cases a <;> simp [submissions, ih]

theorem submissions_replicate_flush (n : Nat) :
    submissions (List.replicate n Action.XFlush) = [] := by
  induction n with
  | zero => rfl
  | succ n ih => simp [List.replicate_succ, submissions, ih]

theorem submissions_ctorActs (G : Globals) (S : Server) (inwin : Window) (k : Nat) :
    submissions (ctorActs G S inwin k) = [] := by
  unfold ctorActs
  by_cases hw : inwin = 0 <;> by_cases hv : G.verbose > 1 <;>
    by_cases hv0 : G.verbose = 0 <;> simp [hw, hv, hv0, submissions]

theorem submissions_callActs (P : Platform) (G : Globals) (S : Server) (t : Typer) (b : Byte) :
    submissions (callActs P G S t b) = [pressOf P S t b, releaseOf P S t b] := by
  unfold callActs pressOf releaseOf
  by_cases hv : G.verbose > 1 <;> simp [hv, submissions]

theorem submissions_flatMap_callActs (P : Platform) (G : Globals) (S : Server) (t : Typer)
    (str : List Byte) :
    submissions (str.flatMap (callActs P G S t))
      = str.flatMap (fun b => [pressOf P S t b, releaseOf P S t b]) := by
  induction str with
  | nil => rfl
  | cons b bs ih => simp [List.flatMap_cons, submissions_append, submissions_callActs, ih]

theorem submissions_typeStringActs (P : Platform) (G : Globals) (S : Server) (inwin : Window)
    (k : Nat) (str : List Byte) :
    submissions (typeStringActs P G S inwin k str)
      = str.flatMap (fun b => [pressOf P S ⟨S.root, targetOf S inwin k⟩ b,
                               releaseOf P S ⟨S.root, targetOf S inwin k⟩ b]) := by
  unfold typeStringActs
  simp [submissions_append, submissions_ctorActs, submissions_replicate_flush,
    submissions_flatMap_callActs]

theorem length_flatMap_pair {α β : Type} (f g : α → β) (l : List α) :
    (l.flatMap (fun a => [f a, g a])).length = 2 * l.length := by
  induction l with
  | nil => rfl
  | cons a l ih => simp [List.flatMap_cons, ih]; omega

theorem getElem_flatMap_pair {α β : Type} (f g : α → β) (l : List α) :
    ∀ (i : Nat) (h : i < l.length),
      (l.flatMap (fun a => [f a, g a]))[2 * i]? = some (f l[i]) ∧
      (l.flatMap (fun a => [f a, g a]))[2 * i + 1]? = some (g l[i]) := by
  induction l with
  | nil => intro i h; simp at h
  | cons a l ih =>
    intro i h
    cases i with
    | zero => simp [List.flatMap_cons]
    | succ j =>
      have hj : j < l.length := by simpa using h
      have e1 : 2 * (j + 1) = (2 * j) + 1 + 1 := by omega
      have e2 : 2 * (j + 1) + 1 = (2 * j + 1) + 1 + 1 := by omega
      have := ih j hj
      simp only [List.flatMap_cons, List.cons_append, List.nil_append, e1, e2,
        List.getElem?_cons_succ, List.getElem_cons_succ]
      exact this

theorem keysymLookups_append (l₁ l₂ : List Action) :
    keysymLookups (l₁ ++ l₂) = keysymLookups l₁ ++ keysymLookups l₂ := by
  induction l₁ with
  | nil => rfl
  | cons a l ih => cases a <;> simp [keysymLookups, ih]

theorem keysymLookups_replicate_flush (n : Nat) :
    keysymLookups (List.replicate n Action.XFlush) = [] := by
  induction n with
  | zero => rfl
  | succ n ih => simp [List.replicate_succ, keysymLookups, ih]

theorem keysymLookups_ctorActs (G : Globals) (S : Server) (inwin : Window) (k : Nat) :
    keysymLookups (ctorActs G S inwin k) = [] := by
  unfold ctorActs
  by_cases hw : inwin = 0 <;> by_cases hv : G.verbose > 1 <;>
    by_cases hv0 : G.verbose = 0 <;> simp [hw, hv, hv0, keysymLookups]

theorem keysymLookups_callActs (P : Platform) (G : Globals) (S : Server) (t : Typer)
    (b : Byte) : keysymLookups (callActs P G S t b) = [keysymOf P b, keysymOf P b] := by
  unfold callActs
  by_cases hv : G.verbose > 1 <;> simp [hv, keysymLookups]

theorem keysymLookups_typeStringActs (P : Platform) (G : Globals) (S : Server)
    (inwin : Window) (k : Nat) (str : List Byte) :
    keysymLookups (typeStringActs P G S inwin k str)
      = str.flatMap (fun b => [keysymOf P b, keysymOf P b]) := by
  unfold typeStringActs
  have h : ∀ t : Typer, keysymLookups (str.flatMap (callActs P G S t))
      = str.flatMap (fun b => [keysymOf P b, keysymOf P b]) := by
    intro t
    induction str with
    | nil => rfl
    | cons b bs ih =>
      simp [List.flatMap_cons, keysymLookups_append, keysymLookups_callActs, ih]
  simp [keysymLookups_append, keysymLookups_ctorActs, keysymLookups_replicate_flush, h]

theorem getElem_append_offset {α : Type} (l₁ l₂ : List α) (i : Nat) :
    (l₁ ++ l₂)[l₁.length + i]? = l₂[i]? := by
  rw [List.getElem?_append_right (by omega)]
  simp

/-- The submissions of one `typeString` call, after those already in the log. -/
theorem submissions_typeString (P : Platform) (G : Globals) (S : Server) (inwin : Window)
    (str : List Byte) (σ : World) :
    submissions (typeString P G S inwin str σ).log = submissions σ.log ++
      str.flatMap (fun b => [pressOf P S ⟨S.root, targetOf S inwin σ.focusQueries⟩ b,
                             releaseOf P S ⟨S.root, targetOf S inwin σ.focusQueries⟩ b]) := by
  rw [typeString_eq]
  simp [submissions_append, submissions_typeStringActs]

/-- The key-symbol lookups of one `typeString` call, after those already in the log. -/
theorem keysymLookups_typeString (P : Platform) (G : Globals) (S : Server) (inwin : Window)
    (str : List Byte) (σ : World) :
    keysymLookups (typeString P G S inwin str σ).log = keysymLookups σ.log ++
      str.flatMap (fun b => [keysymOf P b, keysymOf P b]) := by
  rw [typeString_eq]
  simp [keysymLookups_append, keysymLookups_typeStringActs]

theorem mem_flatMap_pair_window (P : Platform) (S : Server) (t : Typer) (str : List Byte)
    (e : Submission)
    (he : e ∈ str.flatMap (fun b => [pressOf P S t b, releaseOf P S t b])) :
    e.w = t.window ∧ e.event.window = t.window := by
  rw [List.mem_flatMap] at he
  obtain ⟨b, _, hb⟩ := he
  simp only [List.mem_cons, List.mem_singleton, List.not_mem_nil, or_false] at hb
  rcases hb with h | h <;> subst h <;> exact ⟨rfl, rfl⟩

theorem charToInt_of_lt (P : Platform) (b : Byte) (hb : b.val < 128 ∨ P.charSigned = false) :
    charToInt P b = (b.val : Int) := by
  unfold charToInt
  rcases hb with h | h
  · have : ¬ (128 ≤ b.val) := by omega
    simp [this]
  · simp [h]

theorem intToKeySym_of_lt (P : Platform) (n : Nat) (h : n < 2 ^ P.longBits) :
    intToKeySym P (n : Int) = n := by
  unfold intToKeySym
  have h2 : ((n : Int)) % (2 : Int) ^ P.longBits = (n : Int) := by
    apply Int.emod_eq_of_lt (by positivity)
    exact_mod_cast h
  rw [h2]
  simp


theorem intToKeySym_Return (P : Platform) : intToKeySym P XK_Return = XK_Return.toNat := by
  have h32 : (2 : Nat) ^ 32 ≤ 2 ^ P.longBits := Nat.pow_le_pow_right (by decide) P.longBits_ge
  have := intToKeySym_of_lt P 0xff0d (by omega)
  simpa [XK_Return] using this

theorem keysymOf_newline (P : Platform) : keysymOf P 10 = XK_Return.toNat := by
  have h : charToInt P 10 = 10 := by
    rw [charToInt_of_lt P 10 (Or.inl (by decide))]
    rfl
  unfold keysymOf
  rw [if_pos h]
  exact intToKeySym_Return P

theorem keysymOf_plain (P : Platform) (b : Byte) (hnl : b ≠ 10)
    (hb : b.val < 128 ∨ P.charSigned = false) : keysymOf P b = b.val := by
  have hne : ((b.val : Nat) : Int) ≠ 10 := by
    intro h
    apply hnl
    apply Fin.ext
    have : b.val = 10 := by exact_mod_cast h
    simpa using this
  have h8 : (2 : Nat) ^ 32 ≤ 2 ^ P.longBits := Nat.pow_le_pow_right (by decide) P.longBits_ge
  have hlt : b.val < 2 ^ P.longBits := by
    have := b.isLt
    omega
  unfold keysymOf
  rw [charToInt_of_lt P b hb, if_neg hne, intToKeySym_of_lt P b.val hlt]

/-! ## Claims about typeString and the events it submits -/

/-- C1: for every text of n bytes and every window argument, `typeString` submits exactly
    2n events: the event at position 2i is the key press for byte i, the event at position
    2i+1 the key release for the same byte, and all of them carry one and the same target
    window. -/
theorem typeString_press_release_pairs (P : Platform) (G : Globals) (S : Server)
    (window : Window) (str : List Byte) (σ : World) :
    ∃ new : List Submission,
      submissions (typeString P G S window str σ).log = submissions σ.log ++ new ∧
      new.length = 2 * str.length ∧
      (∀ (i : Nat) (h : i < str.length), ∃ p r : Submission,
        new[2 * i]? = some p ∧ new[2 * i + 1]? = some r ∧
        p.event.type = KeyPress ∧ r.event.type = KeyRelease ∧
        p.event.keycode = S.keycode (keysymOf P str[i]) ∧
        r.event.keycode = S.keycode (keysymOf P str[i])) ∧
      (∀ e ∈ new, e.w = targetOf S window σ.focusQueries ∧
        e.event.window = targetOf S window σ.focusQueries) := by
  refine ⟨_, submissions_typeString P G S window str σ, length_flatMap_pair _ _ _, ?_, ?_⟩
  · intro i h
    obtain ⟨h1, h2⟩ := getElem_flatMap_pair
      (pressOf P S ⟨S.root, targetOf S window σ.focusQueries⟩)
      (releaseOf P S ⟨S.root, targetOf S window σ.focusQueries⟩) str i h
    exact ⟨_, _, h1, h2, rfl, rfl, rfl, rfl⟩
  · intro e he
    exact mem_flatMap_pair_window P S _ str e he

/-- C10: every event built by `createKeyEvent` has the Typer's window, the display's root
    window, no subwindow, the current time, same-screen true, modifier state 0, the key code
    the server gives for the key symbol, and type key-press or key-release after the press
    flag; and each of the two events of a character is submitted to the target window with
    propagation requested. -/
theorem key_event_fields (P : Platform) (G : Globals) (S : Server) (window : Window)
    (str : List Byte) (σ : World) :
    (∀ (t : Typer) (press : Bool) (keycode : Int) (σ' : World),
      (t.createKeyEvent P S press keycode 0 σ').1 =
        { type := if press then KeyPress else KeyRelease
          window := t.window
          root := t.winRoot
          subwindow := None
          time := CurrentTime
          x := 1, y := 1, x_root := 1, y_root := 1
          same_screen := True_
          keycode := S.keycode (intToKeySym P keycode)
          state := 0 }) ∧
    (Typer.ctor G S window σ).1 = ⟨S.root, targetOf S window σ.focusQueries⟩ ∧
    (∀ (i : Nat) (h : i < str.length),
      (submissions (typeString P G S window str σ).log)[(submissions σ.log).length + 2 * i]? =
        some { w := targetOf S window σ.focusQueries
               propagate := True_
               event_mask := KeyPressMask
               event :=
                { type := KeyPress
                  window := targetOf S window σ.focusQueries
                  root := S.root
                  subwindow := None
                  time := CurrentTime
                  x := 1, y := 1, x_root := 1, y_root := 1
                  same_screen := True_
                  keycode := S.keycode (keysymOf P str[i])
                  state := 0 } } ∧
      (submissions (typeString P G S window str σ).log)[(submissions σ.log).length + (2 * i + 1)]? =
        some { w := targetOf S window σ.focusQueries
               propagate := True_
               event_mask := KeyPressMask
               event :=
                { type := KeyRelease
                  window := targetOf S window σ.focusQueries
                  root := S.root
                  subwindow := None
                  time := CurrentTime
                  x := 1, y := 1, x_root := 1, y_root := 1
                  same_screen := True_
                  keycode := S.keycode (keysymOf P str[i])
                  state := 0 } }) := by
  refine ⟨?_, ?_, ?_⟩
  · intro t press keycode σ'
    rfl
  · rw [ctor_eq]
  · intro i h
    rw [submissions_typeString, getElem_append_offset, getElem_append_offset]
    exact getElem_flatMap_pair
      (pressOf P S ⟨S.root, targetOf S window σ.focusQueries⟩)
      (releaseOf P S ⟨S.root, targetOf S window σ.focusQueries⟩) str i h

/-- C5: at every position of the text that holds a newline, the key symbol looked up for the
    press and for the release is the Return key symbol `XK_Return` (0xff0d, not the byte
    value 10), and the two events carry the key code the server gives for it. -/
theorem newline_types_Return (P : Platform) (G : Globals) (S : Server) (window : Window)
    (str : List Byte) (σ : World) (i : Nat) (h : i < str.length) (hnl : str[i] = 10) :
    (keysymLookups (typeString P G S window str σ).log)[(keysymLookups σ.log).length + 2 * i]?
      = some XK_Return.toNat ∧
    (keysymLookups (typeString P G S window str σ).log)[(keysymLookups σ.log).length + (2 * i + 1)]?
      = some XK_Return.toNat ∧
    (∃ p r : Submission,
      (submissions (typeString P G S window str σ).log)[(submissions σ.log).length + 2 * i]?
        = some p ∧
      (submissions (typeString P G S window str σ).log)[(submissions σ.log).length + (2 * i + 1)]?
        = some r ∧
      p.event.type = KeyPress ∧ r.event.type = KeyRelease ∧
      p.event.keycode = S.keycode XK_Return.toNat ∧
      r.event.keycode = S.keycode XK_Return.toNat) ∧
    XK_Return.toNat = 0xff0d ∧ XK_Return.toNat ≠ (10 : Byte).val := by
  have hk : keysymOf P str[i] = XK_Return.toNat := by
    rw [hnl]; exact keysymOf_newline P
  refine ⟨?_, ?_, ?_, by decide, by decide⟩
  · rw [keysymLookups_typeString, getElem_append_offset,
      (getElem_flatMap_pair (keysymOf P) (keysymOf P) str i h).1, hk]
  · rw [keysymLookups_typeString, getElem_append_offset,
      (getElem_flatMap_pair (keysymOf P) (keysymOf P) str i h).2, hk]
  · obtain ⟨h1, h2⟩ := getElem_flatMap_pair
      (pressOf P S ⟨S.root, targetOf S window σ.focusQueries⟩)
      (releaseOf P S ⟨S.root, targetOf S window σ.focusQueries⟩) str i h
    refine ⟨pressOf P S ⟨S.root, targetOf S window σ.focusQueries⟩ str[i],
      releaseOf P S ⟨S.root, targetOf S window σ.focusQueries⟩ str[i], ?_, ?_, rfl, rfl, ?_, ?_⟩
    · rw [submissions_typeString, getElem_append_offset]; exact h1
    · rw [submissions_typeString, getElem_append_offset]; exact h2
    · show S.keycode (keysymOf P str[i]) = _
      rw [hk]
    · show S.keycode (keysymOf P str[i]) = _
      rw [hk]

/-- Witness of C5: the text "a\n" typed into window 5 on x86-64 Linux; position 1 holds the
    newline, and its two lookups (positions 2 and 3) are for key symbol 0xff0d. -/
theorem newline_types_Return_witness :
    (keysymLookups (typeString linuxX86_64 ⟨progName, 0⟩ demoServer 5 [97, 10]
        World.init).log)[(keysymLookups World.init.log).length + 2 * 1]?
      = some XK_Return.toNat ∧
    (keysymLookups (typeString linuxX86_64 ⟨progName, 0⟩ demoServer 5 [97, 10]
        World.init).log)[(keysymLookups World.init.log).length + (2 * 1 + 1)]?
      = some XK_Return.toNat :=
  have h := newline_types_Return linuxX86_64 ⟨progName, 0⟩ demoServer 5 [97, 10] World.init 1
    (by decide) (by decide)
  ⟨h.1, h.2.1⟩

/-- C6, the claim as stated fails: on x86-64 Linux, where plain `char` is signed, the byte
    233 (not a newline) is looked up as key symbol 2^64 - 23, not as 233. -/
theorem high_byte_keysym_counterexample :
    (233 : Byte) ≠ 10 ∧
    keysymLookups (typeString linuxX86_64 ⟨progName, 0⟩ demoServer 5 [233] World.init).log
      = [18446744073709551593, 18446744073709551593] ∧
    (18446744073709551593 : Nat) ≠ (233 : Byte).val := by
  decide

/-- C6, amended: for every byte other than newline that is below 128, and for every byte other
    than newline at all where plain `char` is unsigned, the key symbol looked up for the
    press and for the release is the byte value itself, and both events carry the key code
    the server gives for it. -/
theorem plain_byte_is_keysym (P : Platform) (G : Globals) (S : Server) (window : Window)
    (str : List Byte) (σ : World) (i : Nat) (h : i < str.length)
    (hnl : str[i] ≠ 10) (hb : str[i].val < 128 ∨ P.charSigned = false) :
    (keysymLookups (typeString P G S window str σ).log)[(keysymLookups σ.log).length + 2 * i]?
      = some str[i].val ∧
    (keysymLookups (typeString P G S window str σ).log)[(keysymLookups σ.log).length + (2 * i + 1)]?
      = some str[i].val ∧
    (∃ p r : Submission,
      (submissions (typeString P G S window str σ).log)[(submissions σ.log).length + 2 * i]?
        = some p ∧
      (submissions (typeString P G S window str σ).log)[(submissions σ.log).length + (2 * i + 1)]?
        = some r ∧
      p.event.type = KeyPress ∧ r.event.type = KeyRelease ∧
      p.event.keycode = S.keycode str[i].val ∧ r.event.keycode = S.keycode str[i].val) := by
  have hk : keysymOf P str[i] = str[i].val := keysymOf_plain P str[i] hnl hb
  refine ⟨?_, ?_, ?_⟩
  · rw [keysymLookups_typeString, getElem_append_offset,
      (getElem_flatMap_pair (keysymOf P) (keysymOf P) str i h).1, hk]
  · rw [keysymLookups_typeString, getElem_append_offset,
      (getElem_flatMap_pair (keysymOf P) (keysymOf P) str i h).2, hk]
  · obtain ⟨h1, h2⟩ := getElem_flatMap_pair
      (pressOf P S ⟨S.root, targetOf S window σ.focusQueries⟩)
      (releaseOf P S ⟨S.root, targetOf S window σ.focusQueries⟩) str i h
    refine ⟨pressOf P S ⟨S.root, targetOf S window σ.focusQueries⟩ str[i],
      releaseOf P S ⟨S.root, targetOf S window σ.focusQueries⟩ str[i], ?_, ?_, rfl, rfl, ?_, ?_⟩
    · rw [submissions_typeString, getElem_append_offset]; exact h1
    · rw [submissions_typeString, getElem_append_offset]; exact h2
    · show S.keycode (keysymOf P str[i]) = _
      rw [hk]
    · show S.keycode (keysymOf P str[i]) = _
      rw [hk]

/-- Witness of amended C6: the text "aé" in Latin-1 (bytes 97, 233): byte 97 on x86-64 Linux
    (signed `char`), byte 233 on ARM Linux (unsigned `char`). -/
theorem plain_byte_is_keysym_witness :
    (keysymLookups (typeString linuxX86_64 ⟨progName, 0⟩ demoServer 5 [97, 233]
        World.init).log)[(keysymLookups World.init.log).length + 2 * 0]? = some 97 ∧
    (keysymLookups (typeString linuxArm32 ⟨progName, 0⟩ demoServer 5 [97, 233]
        World.init).log)[(keysymLookups World.init.log).length + 2 * 1]? = some 233 :=
  ⟨(plain_byte_is_keysym linuxX86_64 ⟨progName, 0⟩ demoServer 5 [97, 233] World.init 0
      (by decide) (by decide) (Or.inl (by decide))).1,
   (plain_byte_is_keysym linuxArm32 ⟨progName, 0⟩ demoServer 5 [97, 233] World.init 1
      (by decide) (by decide) (Or.inr rfl)).1⟩

/-! ## Claims about streamFile -/

theorem focusQueryCount_append (l₁ l₂ : List Action) :
    focusQueryCount (l₁ ++ l₂) = focusQueryCount l₁ + focusQueryCount l₂ := by
  simp [focusQueryCount]

theorem focusQueryCount_callActs (P : Platform) (G : Globals) (S : Server) (t : Typer)
    (b : Byte) : focusQueryCount (callActs P G S t b) = 0 := by
  unfold callActs focusQueryCount
  by_cases hv : G.verbose > 1 <;> simp [hv]

theorem focusQueryCount_flatMap_callActs (P : Platform) (G : Globals) (S : Server) (t : Typer)
    (str : List Byte) : focusQueryCount (str.flatMap (callActs P G S t)) = 0 := by
  induction str with
  | nil => rfl
  | cons b bs ih =>
    rw [List.flatMap_cons, focusQueryCount_append, focusQueryCount_callActs, ih]

theorem focusQueryCount_ctorActs (G : Globals) (S : Server) (inwin : Window) (k : Nat) :
    focusQueryCount (ctorActs G S inwin k) = if inwin = 0 then 1 else 0 := by
  unfold ctorActs focusQueryCount
  by_cases hw : inwin = 0 <;> by_cases hv : G.verbose > 1 <;>
    by_cases hv0 : G.verbose = 0 <;> simp [hw, hv, hv0]

theorem focusQueryCount_replicate_flush (n : Nat) :
    focusQueryCount (List.replicate n Action.XFlush) = 0 := by
  unfold focusQueryCount
  rw [List.count_eq_zero]
  intro h
  have := List.eq_of_mem_replicate h
  cases this

/-- The number of focus queries one `typeString` call adds: one when the window argument is
    0, none otherwise. -/
theorem focusQueryCount_typeString (P : Platform) (G : Globals) (S : Server) (inwin : Window)
    (str : List Byte) (σ : World) :
    focusQueryCount (typeString P G S inwin str σ).log
      = focusQueryCount σ.log + (if inwin = 0 then 1 else 0) := by
  rw [typeString_eq]
  simp only [typeStringActs, focusQueryCount_append, focusQueryCount_ctorActs,
    focusQueryCount_flatMap_callActs, focusQueryCount_replicate_flush]
  omega

theorem readCount_append (l₁ l₂ : List Action) :
    readCount (l₁ ++ l₂) = readCount l₁ + readCount l₂ := by
  simp [readCount]

theorem readCount_typeStringActs (P : Platform) (G : Globals) (S : Server) (inwin : Window)
    (k : Nat) (str : List Byte) : readCount (typeStringActs P G S inwin k str) = 0 := by
  have hc : ∀ t b, readCount (callActs P G S t b) = 0 := by
    intro t b
    unfold callActs readCount
    by_cases hv : G.verbose > 1 <;> simp [hv]
  have hf : ∀ t, readCount (str.flatMap (callActs P G S t)) = 0 := by
    intro t
    induction str with
    | nil => rfl
    | cons b bs ih => rw [List.flatMap_cons, readCount_append, hc, ih]
  have hr : readCount (List.replicate P.typerObjects Action.XFlush) = 0 := by
    unfold readCount
    rw [List.length_eq_zero, List.filter_eq_nil_iff]
    intro a ha
    have := List.eq_of_mem_replicate ha
    subst this
    simp
  have hk : readCount (ctorActs G S inwin k) = 0 := by
    unfold ctorActs readCount
    by_cases hw : inwin = 0 <;> by_cases hv : G.verbose > 1 <;>
      by_cases hv0 : G.verbose = 0 <;> simp [hw, hv, hv0]
  unfold typeStringActs
  rw [readCount_append, readCount_append, hk, hf, hr]

/-- While the reads return non-empty chunks, `streamFile` reads a chunk, types it with
    `typeString`, and goes on with the remaining reads. -/
theorem streamFile_chunks (P : Platform) (G : Globals) (S : Server) (window : Window)
    (fd : Nat) (chunks : List (List Byte)) (hne : ∀ c ∈ chunks, c ≠ [])
    (rs : List ReadResult) :
    ∀ σ : World, streamFile P G S window fd (chunks.map ReadResult.bytes ++ rs) σ =
      streamFile P G S window fd rs
        (chunks.foldl (fun σ c => typeString P G S window c (σ.emit (.read fd 1024))) σ) := by
  induction chunks with
  | nil => intro σ; rfl
  | cons c cs ih =>
    intro σ
    have hc : c.length ≠ 0 := by
      have := hne c (List.mem_cons_self _ _)
      simpa [List.length_eq_zero] using this
    have hcs : ∀ c' ∈ cs, c' ≠ [] := fun c' h' => hne c' (List.mem_cons_of_mem _ h')
    simp only [List.map_cons, List.cons_append, List.foldl_cons]
    rw [streamFile]
    simp only [hc, if_false]
    exact ih hcs _

/-- The reads do not change what is typed: the chunks typed between reads leave the same
    submissions, and the same number of focus queries, as the chunks typed one after the
    other from a state with the same submissions and focus queries. -/
theorem foldl_read_typeString (P : Platform) (G : Globals) (S : Server) (window : Window)
    (fd : Nat) (chunks : List (List Byte)) :
    ∀ σ τ : World, submissions σ.log = submissions τ.log → σ.focusQueries = τ.focusQueries →
      submissions
          (chunks.foldl (fun σ c => typeString P G S window c (σ.emit (.read fd 1024))) σ).log
        = submissions (chunks.foldl (fun σ c => typeString P G S window c σ) τ).log ∧
      (chunks.foldl (fun σ c => typeString P G S window c (σ.emit (.read fd 1024))) σ).focusQueries
        = (chunks.foldl (fun σ c => typeString P G S window c σ) τ).focusQueries := by
  induction chunks with
  | nil => intro σ τ h1 h2; exact ⟨h1, h2⟩
  | cons c cs ih =>
    intro σ τ h1 h2
    simp only [List.foldl_cons]
    apply ih
    · rw [submissions_typeString, submissions_typeString]
      simp [submissions_append, submissions, h1, h2]
    · rw [typeString_eq, typeString_eq]
      simp [h2]

theorem readCount_foldl_read_typeString (P : Platform) (G : Globals) (S : Server)
    (window : Window) (fd : Nat) (chunks : List (List Byte)) :
    ∀ σ : World, readCount
        (chunks.foldl (fun σ c => typeString P G S window c (σ.emit (.read fd 1024))) σ).log
      = readCount σ.log + chunks.length := by
  induction chunks with
  | nil => intro σ; rfl
  | cons c cs ih =>
    intro σ
    simp only [List.foldl_cons]
    rw [ih, typeString_eq]
    simp only [readCount_append, readCount_typeStringActs, emit_log, List.length_cons]
    simp [readCount]
    omega

/-- At the end of input after non-empty chunks, `streamFile` returns success, and what it
    has submitted is what typing the chunks one after the other submits. -/
theorem streamFile_at_eof (P : Platform) (G : Globals) (S : Server) (window : Window)
    (fd : Nat) (chunks : List (List Byte)) (hne : ∀ c ∈ chunks, c ≠ [])
    (rest : List ReadResult) (σ : World) :
    (streamFile P G S window fd
        (chunks.map ReadResult.bytes ++ ReadResult.bytes [] :: rest) σ).1 = some EXIT_SUCCESS ∧
    submissions (streamFile P G S window fd
        (chunks.map ReadResult.bytes ++ ReadResult.bytes [] :: rest) σ).2.log
      = submissions (chunks.foldl (fun σ c => typeString P G S window c σ) σ).log := by
  rw [streamFile_chunks P G S window fd chunks hne]
  refine ⟨rfl, ?_⟩
  have hsub := (foldl_read_typeString P G S window fd chunks σ σ rfl rfl).1
  show submissions (World.emit _ _).log = _
  rw [emit_log, submissions_append, hsub]
  simp [submissions]

/-- C7: `streamFile` types each non-empty chunk with `typeString` in the order read and
    stops at the first end of input (status success) or read error (failure reported, status
    failure), whatever further reads would have returned: it has read once per chunk and once
    more, and the events submitted are those of `typeString` on the chunks read before. -/
theorem streamFile_stops_at_eof_or_error (P : Platform) (G : Globals) (S : Server)
    (window : Window) (fd : Nat) (chunks : List (List Byte)) (rest : List ReadResult)
    (σ : World) (hne : ∀ c ∈ chunks, c ≠ []) :
    streamFile P G S window fd (chunks.map ReadResult.bytes ++ ReadResult.bytes [] :: rest) σ
      = (some EXIT_SUCCESS,
         (chunks.foldl (fun σ c => typeString P G S window c (σ.emit (.read fd 1024))) σ).emit
           (.read fd 1024)) ∧
    streamFile P G S window fd (chunks.map ReadResult.bytes ++ ReadResult.error :: rest) σ
      = (some EXIT_FAILURE,
         ((chunks.foldl (fun σ c => typeString P G S window c (σ.emit (.read fd 1024))) σ).emit
           (.read fd 1024)).emit (.stderr .readFailed)) ∧
    readCount (((chunks.foldl (fun σ c => typeString P G S window c (σ.emit (.read fd 1024)))
        σ).emit (.read fd 1024)).emit (.stderr .readFailed)).log
      = readCount σ.log + chunks.length + 1 ∧
    submissions (((chunks.foldl (fun σ c => typeString P G S window c (σ.emit (.read fd 1024)))
        σ).emit (.read fd 1024)).emit (.stderr .readFailed)).log
      = submissions (chunks.foldl (fun σ c => typeString P G S window c σ) σ).log ∧
    submissions ((chunks.foldl (fun σ c => typeString P G S window c (σ.emit (.read fd 1024)))
        σ).emit (.read fd 1024)).log
      = submissions (chunks.foldl (fun σ c => typeString P G S window c σ) σ).log := by
  have hsub := (foldl_read_typeString P G S window fd chunks σ σ rfl rfl).1
  refine ⟨?_, ?_, ?_, ?_, ?_⟩
  · rw [streamFile_chunks P G S window fd chunks hne]
    rfl
  · rw [streamFile_chunks P G S window fd chunks hne]
    rfl
  · simp only [emit_log, readCount_append, readCount_foldl_read_typeString]
    simp [readCount]
  · simp only [emit_log, submissions_append, hsub]
    simp [submissions]
  · simp only [emit_log, submissions_append, hsub]
    simp [submissions]

/-- Witness of C7: two chunks "a" and "b", then the end of input or a read error; a third
    chunk that a further read would have returned is never asked for. -/
theorem streamFile_stops_at_eof_or_error_witness :
    (streamFile linuxX86_64 ⟨progName, 0⟩ demoServer 5 0
      ([[97], [98]].map ReadResult.bytes ++ ReadResult.bytes [] :: [ReadResult.bytes [99]])
      World.init).1 = some EXIT_SUCCESS ∧
    (streamFile linuxX86_64 ⟨progName, 0⟩ demoServer 5 0
      ([[97], [98]].map ReadResult.bytes ++ ReadResult.error :: [ReadResult.bytes [99]])
      World.init).1 = some EXIT_FAILURE :=
  have h := streamFile_stops_at_eof_or_error linuxX86_64 ⟨progName, 0⟩ demoServer 5 0
    [[97], [98]] [ReadResult.bytes [99]] World.init (by decide)
  ⟨by rw [h.1], by rw [h.2.1]⟩

/-! ## Claims about the target window -/

theorem gnuOptions_ok (G : Globals) (args : List CStr) :
    ∀ (σ σ' : World) (u : Unit), gnuOptions G args σ = .ok (u, σ') → σ' = σ := by
  induction args with
  | nil => intro σ σ' u h; simp [gnuOptions] at h; exact h.symm
  | cons a rest ih =>
    intro σ σ' u h
    rw [gnuOptions] at h
    by_cases h1 : a = dashdash
    · simp [h1] at h; exact h.symm
    · by_cases h2 : a = dashdashHelp
      · rw [if_neg h1, if_pos h2] at h
        cases h
      · by_cases h3 : a = dashdashVersion
        · rw [if_neg h1, if_neg h2, if_pos h3] at h
          cases h
        · rw [if_neg h1, if_neg h2, if_neg h3] at h
          exact ih σ σ' u h

theorem optionLoop_ok (P : Platform) (G : Globals) (rets : List GetoptRet) :
    ∀ (o o' : Options) (σ σ' : World), optionLoop P G rets o σ = .ok (o', σ') → σ' = σ := by
  induction rets with
  | nil => intro o o' σ σ' h; simp [optionLoop] at h; exact h.2.symm
  | cons r rest ih =>
    intro o o' σ σ' h
    cases r with
    | err c =>
      rw [optionLoop] at h
      simp [GetoptRet.code] at h
    | opt c a =>
      rw [optionLoop] at h
      split_ifs at h
      · exact ih _ _ _ _ h
      · exact ih _ _ _ _ h
      · exact ih _ _ _ _ h

theorem parseArgs_ok (P : Platform) (argv0 : CStr) (args : List CStr) (σ σ' : World)
    (x : Options × Option CStr) (h : parseArgs P argv0 args σ = .ok (x, σ')) : σ' = σ := by
  unfold parseArgs at h
  dsimp only at h
  rcases hg : getoptAll P optstring args false with ⟨rets, operands⟩
  rw [hg] at h
  cases h1 : gnuOptions ⟨argv0, 0⟩ args σ with
  | error e => rw [h1] at h; cases h
  | ok v =>
    obtain ⟨u, σ₁⟩ := v
    have e1 := gnuOptions_ok _ _ _ _ _ h1
    subst e1
    rw [h1] at h
    dsimp only at h
    cases h2 : optionLoop P ⟨argv0, 0⟩ rets ⟨none, 0, 0⟩ σ₁ with
    | error e => rw [h2] at h; cases h
    | ok v2 =>
      obtain ⟨o, σ₂⟩ := v2
      have e2 := optionLoop_ok _ _ _ _ _ _ _ h2
      subst e2
      rw [h2] at h
      simp only [Except.ok.injEq, Prod.mk.injEq] at h
      exact h.2.symm

/-- The counter of focus queries kept in the state agrees with the log, and `typeString`
    keeps it so. -/
theorem typeString_focusQueries_consistent (P : Platform) (G : Globals) (S : Server)
    (inwin : Window) (str : List Byte) (σ : World)
    (hσ : σ.focusQueries = focusQueryCount σ.log) :
    (typeString P G S inwin str σ).focusQueries
      = focusQueryCount (typeString P G S inwin str σ).log := by
  rw [focusQueryCount_typeString, typeString_eq, hσ]

/-- With a window argument of 0, one `typeString` call asks for the focus exactly once,
    before any of its events, and all its events go to the window that query reported. -/
theorem typeString_resolves_focus_once (P : Platform) (G : Globals) (S : Server)
    (str : List Byte) (σ : World) :
    ∃ pre post : List Action,
      (typeString P G S 0 str σ).log = σ.log ++ pre ++ [Action.XGetInputFocus] ++ post ∧
      submissions pre = [] ∧ focusQueryCount pre = 0 ∧ focusQueryCount post = 0 ∧
      (submissions post).length = 2 * str.length ∧
      ∀ e ∈ submissions post, e.w = S.focus σ.focusQueries ∧
        e.event.window = S.focus σ.focusQueries := by
  refine ⟨[Action.XDefaultRootWindow] ++
      (if G.verbose > 1 then [Action.stderr (.locatingFocus G.argv0)] else []),
    (if G.verbose ≠ 0 then
        [Action.stderr (.rootFocus G.argv0 S.root (targetOf S 0 σ.focusQueries))] else []) ++
      str.flatMap (callActs P G S ⟨S.root, targetOf S 0 σ.focusQueries⟩) ++
      List.replicate P.typerObjects Action.XFlush, ?_, ?_, ?_, ?_, ?_, ?_⟩
  · rw [typeString_eq]
    simp [typeStringActs, ctorActs, List.append_assoc]
  · by_cases hv : G.verbose > 1 <;> simp [hv, submissions]
  · by_cases hv : G.verbose > 1 <;> simp [hv, focusQueryCount]
  · rw [focusQueryCount_append, focusQueryCount_append, focusQueryCount_flatMap_callActs,
      focusQueryCount_replicate_flush]
    by_cases hv0 : G.verbose = 0 <;> simp [hv0, focusQueryCount]
  · rw [submissions_append, submissions_append, submissions_flatMap_callActs,
      submissions_replicate_flush]
    have h0 : submissions (if G.verbose ≠ 0 then
        [Action.stderr (.rootFocus G.argv0 S.root (targetOf S 0 σ.focusQueries))] else []) = [] := by
      by_cases hv0 : G.verbose = 0 <;> simp [hv0, submissions]
    rw [h0]
    simpa using length_flatMap_pair _ _ str
  · intro e he
    rw [submissions_append, submissions_append, submissions_flatMap_callActs,
      submissions_replicate_flush] at he
    have h0 : submissions (if G.verbose ≠ 0 then
        [Action.stderr (.rootFocus G.argv0 S.root (targetOf S 0 σ.focusQueries))] else []) = [] := by
      by_cases hv0 : G.verbose = 0 <;> simp [hv0, submissions]
    rw [h0] at he
    simp only [List.nil_append, List.append_nil] at he
    have := mem_flatMap_pair_window P S _ str e he
    simpa [targetOf] using this

/-- When the target window does not depend on the moment of the focus query (a non-zero
    window argument, or a focus that stays where it is), typing the chunks one after the
    other submits what typing their concatenation submits. -/
theorem foldl_typeString_fixed_target (P : Platform) (G : Globals) (S : Server)
    (window : Window) (T : Window) (hT : ∀ k, targetOf S window k = T)
    (chunks : List (List Byte)) :
    ∀ σ : World, submissions (chunks.foldl (fun σ c => typeString P G S window c σ) σ).log =
      submissions σ.log ++
        chunks.flatten.flatMap (fun b => [pressOf P S ⟨S.root, T⟩ b, releaseOf P S ⟨S.root, T⟩ b]) := by
  induction chunks with
  | nil => intro σ; simp
  | cons c cs ih =>
    intro σ
    simp only [List.foldl_cons, List.flatten_cons, List.flatMap_append]
    rw [ih, submissions_typeString, hT, List.append_assoc]

/-- Apart from the moment of the focus query, chunk boundaries are invisible: when the target
    window does not depend on that moment, `streamFile` on non-empty chunks followed by the
    end of input submits exactly what `typeString` submits for their concatenation. -/
theorem streamFile_eq_typeString_fixed_target (P : Platform) (G : Globals) (S : Server)
    (window : Window) (T : Window) (hT : ∀ k, targetOf S window k = T) (fd : Nat)
    (chunks : List (List Byte)) (hne : ∀ c ∈ chunks, c ≠ []) (σ : World) :
    submissions (streamFile P G S window fd
        (chunks.map ReadResult.bytes ++ [ReadResult.bytes []]) σ).2.log
      = submissions (typeString P G S window chunks.flatten σ).log := by
  rw [(streamFile_at_eof P G S window fd chunks hne [] σ).2,
    foldl_typeString_fixed_target P G S window T hT, submissions_typeString, hT]

/-- With a window argument of 0, `streamFile` asks for the focus once per chunk: after
    non-empty chunks and the end of input, the log holds one more focus query for each
    chunk. -/
theorem streamFile_queries_focus_per_chunk (P : Platform) (G : Globals) (S : Server)
    (fd : Nat) (chunks : List (List Byte)) (hne : ∀ c ∈ chunks, c ≠ [])
    (rest : List ReadResult) (σ : World) :
    focusQueryCount (streamFile P G S 0 fd
        (chunks.map ReadResult.bytes ++ ReadResult.bytes [] :: rest) σ).2.log
      = focusQueryCount σ.log + chunks.length := by
  have hfold : ∀ (cs : List (List Byte)) (τ : World), focusQueryCount
      (cs.foldl (fun σ c => typeString P G S 0 c (σ.emit (.read fd 1024))) τ).log
        = focusQueryCount τ.log + cs.length := by
    intro cs
    induction cs with
    | nil => intro τ; rfl
    | cons c cs ih =>
      intro τ
      rw [List.foldl_cons, ih, focusQueryCount_typeString, emit_log, focusQueryCount_append]
      simp [focusQueryCount]
      omega
  rw [streamFile_chunks P G S 0 fd chunks hne]
  show focusQueryCount (World.emit _ _).log = _
  rw [emit_log, focusQueryCount_append, hfold]
  simp [focusQueryCount]

/-- A run of `main` with a literal text and no window given asks for the focus once and
    sends every event to the window that query reported. -/
theorem literal_run_resolves_focus_once (P : Platform) (xopen : Option CStr → Option Server)
    (argv0 : CStr) (args : List CStr) (stdin : List ReadResult) (o : Options) (s : CStr)
    (σ' : World) (S : Server)
    (hp : parseArgs P argv0 args World.init = .ok ((o, some s), σ'))
    (hw : o.window = 0) (hx : xopen o.display_str = some S) :
    focusQueryCount (main P xopen argv0 args stdin).2.log = 1 ∧
    (submissions (main P xopen argv0 args stdin).2.log).length = 2 * s.length ∧
    ∀ e ∈ submissions (main P xopen argv0 args stdin).2.log,
      e.w = S.focus 0 ∧ e.event.window = S.focus 0 := by
  have hσ' := parseArgs_ok P argv0 args _ _ _ hp
  subst hσ'
  unfold main
  rw [hp]
  simp only [hx]
  refine ⟨?_, ?_, ?_⟩
  · rw [focusQueryCount_typeString, hw]
    simp [World.init, focusQueryCount]
  · rw [submissions_typeString, hw, List.length_append, length_flatMap_pair]
    simp [World.init, submissions]
  · intro e he
    rw [submissions_typeString, hw] at he
    simp only [emit_log, World.init, List.nil_append, submissions] at he
    have := mem_flatMap_pair_window P S _ s e he
    simpa [targetOf, World.emit, World.init] using this

/-- C2, the code at the failing input: with no window given and the focus moving from window
    100 to window 101 between the two reads, streaming the chunks "a" and "b" sends the
    events of "b" to window 101, while typing the literal text "ab" sends all four events to
    window 100; the two event sequences differ. -/
theorem streamFile_chunk_boundary_visible :
    (submissions (streamFile linuxX86_64 ⟨progName, 0⟩ demoServer 0 STDIN_FILENO
        [.bytes [97], .bytes [98], .bytes []] World.init).2.log).map
        (fun e => (e.w, e.event.type, e.event.keycode))
      = [(100, 2, 97), (100, 3, 97), (101, 2, 98), (101, 3, 98)] ∧
    (submissions (typeString linuxX86_64 ⟨progName, 0⟩ demoServer 0 [97, 98]
        World.init).log).map (fun e => (e.w, e.event.type, e.event.keycode))
      = [(100, 2, 97), (100, 3, 97), (100, 2, 98), (100, 3, 98)] ∧
    submissions (streamFile linuxX86_64 ⟨progName, 0⟩ demoServer 0 STDIN_FILENO
        [.bytes [97], .bytes [98], .bytes []] World.init).2.log
      ≠ submissions (typeString linuxX86_64 ⟨progName, 0⟩ demoServer 0 [97, 98]
        World.init).log := by
  decide

/-- C3, the code at the failing input: a run of `x11type` without arguments that reads the
    chunks "a" and "b" from standard input asks for the focus twice, once per chunk, and the
    events of the second chunk go to the window of the second answer (101), not to the
    window the first query reported (100). -/
theorem stream_run_queries_focus_per_chunk :
    (main linuxX86_64 demoOpen progName [] [.bytes [97], .bytes [98], .bytes []]).1
      = some EXIT_SUCCESS ∧
    focusQueryCount
      (main linuxX86_64 demoOpen progName [] [.bytes [97], .bytes [98], .bytes []]).2.log = 2 ∧
    (submissions
      (main linuxX86_64 demoOpen progName [] [.bytes [97], .bytes [98], .bytes []]).2.log).map
        (fun e => e.w) = [100, 100, 101, 101] ∧
    demoServer.focus 0 = 100 := by
  decide

/-! ## Claims about the command line -/

/-- The GNU-option loop passes when no `--help` and no `--version` stands before the first
    `--`. -/
theorem gnuOptions_pass (G : Globals) (args : List CStr) :
    ∀ σ : World,
      (∀ a ∈ args.takeWhile (fun a => decide (a ≠ dashdash)),
        a ≠ dashdashHelp ∧ a ≠ dashdashVersion) →
      gnuOptions G args σ = .ok ((), σ) := by
  induction args with
  | nil => intro σ _; rfl
  | cons a rest ih =>
    intro σ h
    rw [gnuOptions]
    by_cases h1 : a = dashdash
    · rw [if_pos h1]
    · have htw : (a :: rest).takeWhile (fun a => decide (a ≠ dashdash))
          = a :: rest.takeWhile (fun a => decide (a ≠ dashdash)) := by
        simp [List.takeWhile_cons, h1]
      rw [htw] at h
      have ha := h a (List.mem_cons_self _ _)
      rw [if_neg h1, if_neg ha.1, if_neg ha.2]
      exact ih σ (fun b hb => h b (List.mem_cons_of_mem _ hb))

/-- The GNU-option loop stops at a `--help` that no `--` and no `--version` precedes. -/
theorem gnuOptions_help (G : Globals) (pre post : List CStr)
    (hpre : ∀ a ∈ pre, a ≠ dashdash ∧ a ≠ dashdashVersion) (σ : World) :
    gnuOptions G (pre ++ dashdashHelp :: post) σ = .error (usage G EXIT_SUCCESS σ) := by
  induction pre with
  | nil =>
    rw [List.nil_append, gnuOptions, if_neg (by decide), if_pos rfl]
  | cons a rest ih =>
    have ha := hpre a (List.mem_cons_self _ _)
    rw [List.cons_append, gnuOptions, if_neg ha.1]
    by_cases h2 : a = dashdashHelp
    · rw [if_pos h2]
    · rw [if_neg h2, if_neg ha.2]
      exact ih (fun b hb => hpre b (List.mem_cons_of_mem _ hb))

/-- The option loop runs through `-d`, `-v` and `-w` reports and goes on with the rest. -/
theorem optionLoop_skip (P : Platform) (G : Globals) (pre rs : List GetoptRet)
    (hpre : ∀ r ∈ pre, r.code = 100 ∨ r.code = 118 ∨ r.code = 119) (σ : World) :
    ∀ o : Options, ∃ o' : Options,
      optionLoop P G (pre ++ rs) o σ = optionLoop P G rs o' σ := by
  induction pre with
  | nil => intro o; exact ⟨o, rfl⟩
  | cons r rest ih =>
    intro o
    have hr := hpre r (List.mem_cons_self _ _)
    have hrest : ∀ r' ∈ rest, r'.code = 100 ∨ r'.code = 118 ∨ r'.code = 119 :=
      fun r' h' => hpre r' (List.mem_cons_of_mem _ h')
    cases r with
    | err c => simp [GetoptRet.code] at hr
    | opt c a =>
      rw [List.cons_append, optionLoop]
      rcases hr with h | h | h
      · rw [if_pos h]
        exact ih hrest _
      · have n1 : ¬ (GetoptRet.opt c a).code = 100 := by omega
        have n2 : ¬ (GetoptRet.opt c a).code = 104 := by omega
        rw [if_neg n1, if_neg n2, if_pos h]
        exact ih hrest _
      · have n1 : ¬ (GetoptRet.opt c a).code = 100 := by omega
        have n2 : ¬ (GetoptRet.opt c a).code = 104 := by omega
        have n3 : ¬ (GetoptRet.opt c a).code = 118 := by omega
        have n4 : ¬ (GetoptRet.opt c a).code = 86 := by omega
        rw [if_neg n1, if_neg n2, if_neg n3, if_neg n4, if_pos h]
        exact ih hrest _

/-- C8, the claim as stated fails: in `x11type -x -h` the option `-h` is given, yet the
    unrecognized `-x` before it makes the program exit with failure status; in
    `x11type -V -h` the program prints the version banner, not the usage text. -/
theorem help_after_other_option_counterexample :
    GetoptRet.opt 104 none ∈ (getoptAll linuxX86_64 optstring [[45, 120], [45, 104]] false).1 ∧
    (main linuxX86_64 demoOpen progName [[45, 120], [45, 104]] []).1 = some EXIT_FAILURE ∧
    EXIT_FAILURE ≠ EXIT_SUCCESS ∧
    GetoptRet.opt 104 none ∈ (getoptAll linuxX86_64 optstring [[45, 86], [45, 104]] false).1 ∧
    (main linuxX86_64 demoOpen progName [[45, 86], [45, 104]] []).2.log
      = [Action.stdout Msg.version] := by
  decide

/-- C8, amended: when `--help` stands among the arguments with neither `--` nor `--version`
    before it, or when the GNU-option loop passes and `-h` is the first option `getopt`
    reports other than `-d`, `-v` and `-w`, the program prints the usage text (on standard
    output) and exits with success status, the same in both cases, and that is all it does:
    it opens no display connection and submits no event. -/
theorem help_prints_usage_and_succeeds (P : Platform) (xopen : Option CStr → Option Server)
    (argv0 : CStr) (args : List CStr) (stdin : List ReadResult)
    (h : (∃ pre post : List CStr, args = pre ++ dashdashHelp :: post ∧
            ∀ a ∈ pre, a ≠ dashdash ∧ a ≠ dashdashVersion) ∨
         ((∀ a ∈ args.takeWhile (fun a => decide (a ≠ dashdash)),
            a ≠ dashdashHelp ∧ a ≠ dashdashVersion) ∧
          ∃ (pre post : List GetoptRet) (optarg : Option CStr),
            (getoptAll P optstring args false).1 = pre ++ GetoptRet.opt 104 optarg :: post ∧
            ∀ r ∈ pre, r.code = 100 ∨ r.code = 118 ∨ r.code = 119)) :
    main P xopen argv0 args stdin
      = (some EXIT_SUCCESS, ⟨[Action.stdout (Msg.usage argv0)], 0⟩) ∧
    submissions (main P xopen argv0 args stdin).2.log = [] ∧
    ∀ name, Action.XOpenDisplay name ∉ (main P xopen argv0 args stdin).2.log := by
  have key : main P xopen argv0 args stdin
      = (some EXIT_SUCCESS, ⟨[Action.stdout (Msg.usage argv0)], 0⟩) := by
    rcases h with ⟨pre, post, hargs, hpre⟩ | ⟨hscan, pre, post, optarg, hrets, hpre⟩
    · unfold main parseArgs
      dsimp only
      rw [hargs, gnuOptions_help _ pre post hpre]
      rfl
    · unfold main parseArgs
      dsimp only
      rw [gnuOptions_pass _ args World.init hscan]
      rcases hg : getoptAll P optstring args false with ⟨rets, operands⟩
      rw [hg] at hrets
      dsimp only at hrets ⊢
      obtain ⟨o', ho'⟩ := optionLoop_skip P ⟨argv0, 0⟩ pre (GetoptRet.opt 104 optarg :: post)
        hpre World.init ⟨none, 0, 0⟩
      rw [hrets, ho', optionLoop]
      rfl
  rw [key]
  refine ⟨rfl, rfl, ?_⟩
  intro name hmem
  simp at hmem

/-- Witness of amended C8: `x11type -d --help` (the pre-scan finds `--help`) and
    `x11type -v -h` (the option loop reaches `-h`). -/
theorem help_prints_usage_and_succeeds_witness :
    main linuxX86_64 demoOpen progName [[45, 100], dashdashHelp] []
      = (some EXIT_SUCCESS, ⟨[Action.stdout (Msg.usage progName)], 0⟩) ∧
    main linuxX86_64 demoOpen progName [[45, 118], [45, 104]] []
      = (some EXIT_SUCCESS, ⟨[Action.stdout (Msg.usage progName)], 0⟩) :=
  ⟨(help_prints_usage_and_succeeds linuxX86_64 demoOpen progName [[45, 100], dashdashHelp] []
      (Or.inl ⟨[[45, 100]], [], rfl, by decide⟩)).1,
   (help_prints_usage_and_succeeds linuxX86_64 demoOpen progName [[45, 118], [45, 104]] []
      (Or.inr ⟨by decide, [GetoptRet.opt 118 none], [], none, rfl, by decide⟩)).1⟩

/-- C9, the claim as stated fails: for `x11type -x` the usage text goes to standard output
    (only the complaint of `getopt` goes to standard error); and in `x11type -h -x` the
    unrecognized option is never reached, the exit status is success. -/
theorem usage_on_stdout_counterexample :
    (main linuxX86_64 demoOpen progName [[45, 120]] []).2.log
      = [Action.stderr (Msg.getoptError progName 120), Action.stdout (Msg.usage progName)] ∧
    Action.stderr (Msg.usage progName) ∉ (main linuxX86_64 demoOpen progName [[45, 120]] []).2.log ∧
    GetoptRet.err 120 ∈ (getoptAll linuxX86_64 optstring [[45, 104], [45, 120]] false).1 ∧
    (main linuxX86_64 demoOpen progName [[45, 104], [45, 120]] []).1 = some EXIT_SUCCESS := by
  decide

/-- C9, amended: when the GNU-option loop passes and the first option `getopt` reports other
    than `-d`, `-v` and `-w` is an unrecognized option or an option missing its argument, the
    program prints the usage text on standard output, after the complaint of `getopt` on
    standard error, and exits with failure status; it opens no display connection and
    submits no event. -/
theorem bad_option_prints_usage_and_fails (P : Platform) (xopen : Option CStr → Option Server)
    (argv0 : CStr) (args : List CStr) (stdin : List ReadResult)
    (pre post : List GetoptRet) (optopt : Byte)
    (hscan : ∀ a ∈ args.takeWhile (fun a => decide (a ≠ dashdash)),
      a ≠ dashdashHelp ∧ a ≠ dashdashVersion)
    (hrets : (getoptAll P optstring args false).1 = pre ++ GetoptRet.err optopt :: post)
    (hpre : ∀ r ∈ pre, r.code = 100 ∨ r.code = 118 ∨ r.code = 119) :
    main P xopen argv0 args stdin
      = (some EXIT_FAILURE,
         ⟨[Action.stderr (Msg.getoptError argv0 optopt), Action.stdout (Msg.usage argv0)], 0⟩) ∧
    submissions (main P xopen argv0 args stdin).2.log = [] ∧
    ∀ name, Action.XOpenDisplay name ∉ (main P xopen argv0 args stdin).2.log := by
  have key : main P xopen argv0 args stdin
      = (some EXIT_FAILURE,
         ⟨[Action.stderr (Msg.getoptError argv0 optopt), Action.stdout (Msg.usage argv0)], 0⟩) := by
    unfold main parseArgs
    dsimp only
    rw [gnuOptions_pass _ args World.init hscan]
    rcases hg : getoptAll P optstring args false with ⟨rets, operands⟩
    rw [hg] at hrets
    dsimp only at hrets ⊢
    obtain ⟨o', ho'⟩ := optionLoop_skip P ⟨argv0, 0⟩ pre (GetoptRet.err optopt :: post)
      hpre World.init ⟨none, 0, 0⟩
    rw [hrets, ho', optionLoop]
    rfl
  rw [key]
  refine ⟨rfl, rfl, ?_⟩
  intro name hmem
  simp at hmem

/-- Witness of amended C9: `x11type -v -x` (unrecognized option) and `x11type -d` (missing
    argument). -/
theorem bad_option_prints_usage_and_fails_witness :
    main linuxX86_64 demoOpen progName [[45, 118], [45, 120]] []
      = (some EXIT_FAILURE,
         ⟨[Action.stderr (Msg.getoptError progName 120), Action.stdout (Msg.usage progName)], 0⟩) ∧
    main linuxX86_64 demoOpen progName [[45, 100]] []
      = (some EXIT_FAILURE,
         ⟨[Action.stderr (Msg.getoptError progName 100), Action.stdout (Msg.usage progName)], 0⟩) :=
  ⟨(bad_option_prints_usage_and_fails linuxX86_64 demoOpen progName [[45, 118], [45, 120]] []
      [GetoptRet.opt 118 none] [] 120 (by decide) rfl (by decide)).1,
   (bad_option_prints_usage_and_fails linuxX86_64 demoOpen progName [[45, 100]] []
      [] [] 100 (by decide) rfl (by decide)).1⟩

/-! ## Claims about the window given with -w -/

end X11Type
